import Mathlib

/-!
# Verification of the mood-matcher ranking pipeline

A shallow embedding, in Lean 4, of the core logic of the
mood-matcher playlist generator:

* `app/core/mood.py` — `MoodParser` (free text → structured mood profile);
* `app/core/rank.py` — `PlaylistRanker` (base scoring, AI re-ranking with
  fallback, defensive validation);
* `app/services/models.py` — `ensure_json` / `_extract_key_value_pairs`
  (multi-tier recovery of structured data from raw model output).

Modelling conventions:

* Python floats are modelled as exact rationals (`ℚ`).  All score
  arithmetic in the source (sums, clamps, absolute differences, scaling
  by decimal constants) is exact decimal arithmetic, which `ℚ` represents
  faithfully.  The IEEE special values `inf`/`nan` that Python's
  `float("...")` can produce from strings are not representable; string
  inputs denoting them are modelled as conversion failures.
* Python's hash-ordered `set` is modelled as a deduplicated list in
  first-occurrence order; every property proved about sets here
  (membership, intersection sizes) is independent of iteration order.
* `dict` is modelled as an association list; lookups take the last
  binding for a key, matching the overwrite semantics of dict building.
* The external model manager (`ModelManager.generate_json`) performs
  network I/O.  It is modelled as an arbitrary sequence of call results,
  one per AI call in order: `oracle : Nat → Option ModelResponse`, where
  `none` models the call raising an exception (caught by the ranker) and
  `some r` a returned `ModelResponse`.  Quantifying over all such
  oracles subsumes every possible dependence of the response on the
  prompt text, so the prompt-building step needs no model of its own.
* Character classes (`\s`, `\d`, `\w`, `str.lower`) are modelled over
  ASCII, the alphabet all the source's own vocabulary lives in.
-/

namespace MoodMatch

/-! ## Character-run machinery

`runsAux p cs acc` splits `cs` into the maximal runs of characters
satisfying `p`, discarding separators.  It models both Python's
`str.split()` (runs of non-whitespace) and the token extraction of
`re.findall(r'\b[a-z]+\b', ...)` (runs of word characters, filtered). -/

def runsAux (p : Char → Bool) : List Char → List Char → List (List Char)
  | [], acc => if acc.isEmpty then [] else [acc.reverse]
  | c :: cs, acc =>
    if p c then runsAux p cs (c :: acc)
    else if acc.isEmpty then runsAux p cs []
    else acc.reverse :: runsAux p cs []

def runs (p : Char → Bool) (s : List Char) : List (List Char) := runsAux p s []

def notWS (c : Char) : Bool := !c.isWhitespace

/-- Python `s.split()`: whitespace-separated words, empties dropped. -/
def pyWords (s : String) : List String := (runs notWS s.data).map String.mk

/-- Python `" ".join(ws)`. -/
def joinWords : List String → String
  | [] => ""
  | [w] => w
  | w :: ws => w ++ " " ++ joinWords ws

/-- Contiguous-sublist test on character lists: `startsWithCL p s` holds
when `p` is a prefix of `s` (models the first step of Python `in`). -/
def startsWithCL : List Char → List Char → Bool
  | [], _ => true
  | _ :: _, [] => false
  | p :: ps, c :: cs => p == c && startsWithCL ps cs

/-- Python's substring test `pat in s`, on character lists. -/
def infixCL : List Char → List Char → Bool
  | pat, [] => pat.isEmpty
  | pat, c :: cs => startsWithCL pat (c :: cs) || infixCL pat cs

/-- Python's substring test `pat in s` on strings. -/
def substrOf (pat s : String) : Bool := infixCL pat.data s.data

/-- Python `s.strip()` (ASCII whitespace), as an executable definition
over the character list. -/
def pyStrip (s : String) : String :=
  String.mk (((s.data.dropWhile Char.isWhitespace).reverse.dropWhile
    Char.isWhitespace).reverse)

/-- Python `s.lower()` (ASCII), as an executable definition over the
character list. -/
def pyLower (s : String) : String := String.mk (s.data.map Char.toLower)

/-- Python `s.split(sep)` for a non-empty separator: scan left to right,
cutting at each (non-overlapping) occurrence of `sep`.  The fuel is one
more than the length, enough for the one-character-per-step scan. -/
def splitOnAux (sep : List Char) : Nat → List Char → List Char → List (List Char)
  | _, [], acc => [acc.reverse]
  | 0, cs, acc => [acc.reverse ++ cs]
  | fuel + 1, c :: cs, acc =>
    if startsWithCL sep (c :: cs) then
      acc.reverse :: splitOnAux sep fuel ((c :: cs).drop sep.length) []
    else splitOnAux sep fuel cs (c :: acc)

/-- Python `s.split(sep)` on strings. -/
def pySplitOn (s sep : String) : List String :=
  (splitOnAux sep.data (s.data.length + 1) s.data []).map String.mk

/-! ## `app/core/mood.py` — the mood parser -/

/-- `MoodProfile` dataclass of `app/core/mood.py`. -/
structure MoodProfile where
  energy : String
  valence : String
  tempo : String
  genres : List String
  keywords : List String
  raw_text : String
deriving DecidableEq, Repr

/-- `MoodParser.ENERGY_MAP`, in declaration order. -/
def ENERGY_MAP : List (String × List String) :=
  [("high", ["energetic", "pumped", "excited", "hyper", "intense", "powerful", "upbeat"]),
   ("medium", ["moderate", "balanced", "steady", "calm", "relaxed"]),
   ("low", ["tired", "sleepy", "mellow", "peaceful", "quiet", "soft", "gentle"])]

/-- `MoodParser.VALENCE_MAP`, in declaration order. -/
def VALENCE_MAP : List (String × List String) :=
  [("positive", ["happy", "joyful", "cheerful", "uplifting", "bright", "optimistic", "fun"]),
   ("negative", ["sad", "depressed", "melancholy", "dark", "gloomy", "angry", "frustrated"]),
   ("neutral", ["contemplative", "thoughtful", "reflective", "nostalgic", "bittersweet"])]

/-- `MoodParser.TEMPO_MAP`, in declaration order. -/
def TEMPO_MAP : List (String × List String) :=
  [("fast", ["fast", "quick", "rapid", "danceable", "upbeat", "energetic"]),
   ("medium", ["moderate", "steady", "walking", "medium"]),
   ("slow", ["slow", "ballad", "chill", "ambient", "peaceful", "relaxed"])]

/-- `MoodParser.GENRE_KEYWORDS` (a Python set; listed in literal order). -/
def GENRE_KEYWORDS : List String :=
  ["rock", "pop", "hip-hop", "rap", "jazz", "classical", "electronic",
   "country", "folk", "blues", "reggae", "metal", "punk", "indie",
   "alternative", "r&b", "soul", "funk", "disco", "house", "techno"]

/-- The stop-word set of `MoodParser._extract_words`. -/
def stopWords : List String :=
  ["i", "me", "my", "myself", "we", "our", "ours", "ourselves", "you", "your",
   "yours", "yourself", "yourselves", "he", "him", "his", "himself", "she",
   "her", "hers", "herself", "it", "its", "itself", "they", "them", "their",
   "theirs", "themselves", "what", "which", "who", "whom", "this", "that",
   "these", "those", "am", "is", "are", "was", "were", "be", "been", "being",
   "have", "has", "had", "having", "do", "does", "did", "doing", "a", "an",
   "the", "and", "but", "if", "or", "because", "as", "until", "while", "of",
   "at", "by", "for", "with", "through", "during", "before", "after", "above",
   "below", "up", "down", "in", "out", "on", "off", "over", "under", "again",
   "further", "then", "once", "want", "like", "feel", "feeling"]

def isLowerAZ (c : Char) : Bool := decide ('a' ≤ c) && decide (c ≤ 'z')

/-- Python regex word characters (ASCII): `[A-Za-z0-9_]`. -/
def isWordChar (c : Char) : Bool := c.isAlphanum || c == '_'

/-- The tokens produced by `re.findall(r'\b[a-z]+\b', text)`: a token is a
maximal run of word characters that consists entirely of `[a-z]` (the
`\b` boundaries exclude runs adjacent to digits, underscores, or other
word characters). -/
def tokenRuns (s : List Char) : List String :=
  ((runs isWordChar s).filter (fun w => w.all isLowerAZ)).map String.mk

/-- `MoodParser._extract_words`: tokens of length > 2 that are not stop
words, as a set (modelled as a first-occurrence deduplicated list). -/
def extract_words (text : String) : List String :=
  ((tokenRuns text.data).filter
    (fun w => decide (w.length > 2) && !stopWords.contains w)).dedup

/-- `MoodParser._find_best_match`'s `max(scores, key=scores.get)`:
first key attaining the maximal value, scanning in declaration order. -/
def maxKey : (String × Nat) → List (String × Nat) → String
  | best, [] => best.1
  | best, p :: ps => if p.2 > best.2 then maxKey p ps else maxKey best ps

/-- Size of `words ∩ set(kws)` for `words` a deduplicated list. -/
def interCount (words kws : List String) : Nat :=
  (words.filter (fun w => kws.contains w)).length

/-- `MoodParser._find_best_match`. -/
def find_best_match (words : List String) (keyword_map : List (String × List String))
    (dflt : String) : String :=
  let scores := keyword_map.map (fun p => (p.1, interCount words p.2))
  if scores.all (fun p => p.2 == 0) then dflt
  else
    match scores with
    | [] => dflt
    | s :: rest => maxKey s rest

def detect_energy (words : List String) : String := find_best_match words ENERGY_MAP "medium"

def detect_valence (words : List String) : String := find_best_match words VALENCE_MAP "neutral"

def detect_tempo (words : List String) : String := find_best_match words TEMPO_MAP "medium"

/-- `MoodParser._detect_genres`: `words ∩ GENRE_KEYWORDS`. -/
def detect_genres (words : List String) : List String :=
  words.filter (fun w => GENRE_KEYWORDS.contains w)

/-- The all-default profile returned on empty/blank input. -/
def defaultProfile : MoodProfile :=
  ⟨"medium", "neutral", "medium", [], [], ""⟩

/-- `MoodParser.parse`.  The guard `not mood_text or not mood_text.strip()`
is equivalent to the stripped text being empty. -/
def parse (mood_text : String) : MoodProfile :=
  if pyStrip mood_text = "" then defaultProfile
  else
    let words := extract_words (pyLower mood_text)
    ⟨detect_energy words, detect_valence words, detect_tempo words,
     detect_genres words, words, pyStrip mood_text⟩

/-! ## `app/core/fetcher.py` — the `Track` dataclass (read-only input) -/

/-- `Track` dataclass of `app/core/fetcher.py`.  `features` is a dict of
floats, modelled as an association list over `ℚ`. -/
structure Track where
  title : String
  artist : String
  genre : Option String := none
  tags : List String := []
  decade : Option String := none
  language : Option String := some "English"
  tempo : Option String := none
  features : List (String × ℚ) := []
deriving DecidableEq, Repr

/-- Python `dict.get(k, d)` on an association list (dicts have unique
keys; the first binding wins). -/
def dictGet {α : Type} (m : List (String × α)) (k : String) (d : α) : α :=
  match m.find? (fun p => p.1 == k) with
  | some p => p.2
  | none => d

/-! ## `app/core/rank.py` — scoring -/

/-- `RankedTrack` dataclass of `app/core/rank.py`. -/
structure RankedTrack where
  track : Track
  score : ℚ
  reason : String
  match_factors : List String
deriving DecidableEq, Repr

/-- `PlaylistRanker._match_energy`. -/
def match_energy (mood_energy : String) (track : Track) : ℚ :=
  let energy := dictGet track.features "energy" 0.5
  let targets : List (String × ℚ) := [("low", 0.3), ("medium", 0.6), ("high", 0.8)]
  let diff := |energy - dictGet targets mood_energy 0.6|
  max 0.0 (2.0 * (1 - diff))

/-- `PlaylistRanker._match_valence`. -/
def match_valence (mood_valence : String) (track : Track) : ℚ :=
  let val := dictGet track.features "valence" 0.5
  let targets : List (String × ℚ) := [("negative", 0.3), ("neutral", 0.5), ("positive", 0.7)]
  let diff := |val - dictGet targets mood_valence 0.5|
  max 0.0 (2.0 * (1 - diff))

/-- `list.index` on the two three-element tempo vocabularies (total here;
the source only calls it under a membership guard). -/
def seqIdx (x : String) : List String → Nat
  | [] => 0
  | y :: ys => if y == x then 0 else seqIdx x ys + 1

/-- `PlaylistRanker._match_tempo`. -/
def match_tempo (mood_tempo track_tempo : String) : ℚ :=
  let mood_seq := ["slow", "medium", "fast"]
  let track_seq := ["slow", "mid", "fast"]
  if mood_seq.contains mood_tempo && track_seq.contains track_tempo then
    if (mood_tempo == "medium" && track_tempo == "mid") || mood_tempo == track_tempo then 1.5
    else if ((seqIdx mood_tempo mood_seq : Int) - (seqIdx track_tempo track_seq : Int)).natAbs == 1
    then 0.5
    else 0.0
  else 0.0

/-- The genre-family map of `PlaylistRanker._match_genres`. -/
def genreFamilies : List (String × List String) :=
  [("rock", ["alternative", "indie", "metal", "punk"]),
   ("pop", ["dance", "electronic", "disco"]),
   ("hip-hop", ["rap", "r&b"]),
   ("jazz", ["blues", "soul", "funk"]),
   ("folk", ["country", "acoustic"])]

/-- `PlaylistRanker._match_genres`. -/
def match_genres (mood_genres : List String) (track_genre : String) : ℚ :=
  if mood_genres.isEmpty || track_genre == "" then 0.0
  else
    let low := mood_genres.map pyLower
    if low.contains (pyLower track_genre) then 1.0
    else if low.any (fun g => (dictGet genreFamilies g []).contains (pyLower track_genre)) then 0.5
    else 0.0

/-- `PlaylistRanker._match_keywords`.  `tag_matches` counts the distinct
lower-cased keywords occurring among the lower-cased tags (a Python set
intersection); `title_matches` counts keywords (with multiplicity) that
occur as substrings of `title + " " + artist` lower-cased. -/
def match_keywords (mood_keywords : List String) (track : Track) : ℚ :=
  if mood_keywords.isEmpty then 0.0
  else
    let kwLow := (mood_keywords.map pyLower).dedup
    let tagLow := track.tags.map pyLower
    let tag_matches : Nat := (kwLow.filter (fun k => tagLow.contains k)).length
    let title_artist := pyLower (track.title ++ " " ++ track.artist)
    let title_matches : Nat :=
      (mood_keywords.filter (fun k => substrOf (pyLower k) title_artist)).length
    min 1.0 (((tag_matches : ℚ) + 0.5 * (title_matches : ℚ)) * 0.3)

/-- `PlaylistRanker._calculate_base_score`: 5.0 plus the five signal
contributions, clamped into [0, 10]. -/
def calculate_base_score (mood : MoodProfile) (track : Track) : ℚ :=
  let score := 5.0 + match_energy mood.energy track + match_valence mood.valence track
    + match_tempo mood.tempo (track.tempo.getD "")
    + match_genres mood.genres (track.genre.getD "")
    + match_keywords mood.keywords track
  max 0.0 (min 10.0 score)

/-! ## JSON values and a model of Python's `json.loads`

`json.loads` returns an arbitrary Python value decoded from JSON text
(despite `ensure_json`'s `Dict[str, Any]` annotation, the decoded value
need not be a dict).  Numbers are modelled as exact rationals; the
non-standard `Infinity`/`NaN` extensions of Python's decoder are not
representable in `ℚ` and are modelled as parse failures. -/

inductive JsonValue where
  | null : JsonValue
  | bool : Bool → JsonValue
  | num : ℚ → JsonValue
  | str : String → JsonValue
  | arr : List JsonValue → JsonValue
  | obj : List (String × JsonValue) → JsonValue

def jsonWS (c : Char) : Bool := c == ' ' || c == '\t' || c == '\n' || c == '\r'

def skipWs (cs : List Char) : List Char := cs.dropWhile jsonWS

def digitsToNat (ds : List Char) : Nat :=
  ds.foldl (fun n c => n * 10 + (c.toNat - '0'.toNat)) 0

/-- Parse a JSON number (sign, integer part with no leading zeros,
optional fraction, optional exponent) off the front of `cs`. -/
def parseNumCL (cs : List Char) : Option (ℚ × List Char) :=
  let (neg, cs1) : Bool × List Char :=
    match cs with
    | '-' :: r => (true, r)
    | _ => (false, cs)
  match cs1 with
  | [] => none
  | c :: _ =>
    if !c.isDigit then none
    else
      let (ipart, rest1) : ℚ × List Char :=
        match cs1 with
        | '0' :: r => (0, r)
        | _ => ((digitsToNat (cs1.takeWhile Char.isDigit) : ℚ), cs1.dropWhile Char.isDigit)
      let withFrac : Option (ℚ × List Char) :=
        match rest1 with
        | '.' :: r2 =>
          let ds := r2.takeWhile Char.isDigit
          if ds.isEmpty then none
          else some (ipart + (digitsToNat ds : ℚ) / (10 : ℚ) ^ ds.length, r2.dropWhile Char.isDigit)
        | _ => some (ipart, rest1)
      match withFrac with
      | none => none
      | some (v, rest2) =>
        let withExp : Option (ℚ × List Char) :=
          match rest2 with
          | 'e' :: r3 =>
            match (match r3 with
                   | '+' :: rr => (false, rr)
                   | '-' :: rr => (true, rr)
                   | _ => (false, r3) : Bool × List Char) with
            | (negE, r4) =>
              let ds := r4.takeWhile Char.isDigit
              if ds.isEmpty then none
              else some (if negE then v / (10 : ℚ) ^ digitsToNat ds
                         else v * (10 : ℚ) ^ digitsToNat ds, r4.dropWhile Char.isDigit)
          | 'E' :: r3 =>
            match (match r3 with
                   | '+' :: rr => (false, rr)
                   | '-' :: rr => (true, rr)
                   | _ => (false, r3) : Bool × List Char) with
            | (negE, r4) =>
              let ds := r4.takeWhile Char.isDigit
              if ds.isEmpty then none
              else some (if negE then v / (10 : ℚ) ^ digitsToNat ds
                         else v * (10 : ℚ) ^ digitsToNat ds, r4.dropWhile Char.isDigit)
          | _ => some (v, rest2)
        withExp.map (fun p => (if neg then -p.1 else p.1, p.2))

def hexVal (c : Char) : Option Nat :=
  if c.isDigit then some (c.toNat - 48)
  else
    let l := c.toLower
    if 'a' ≤ l && l ≤ 'f' then some (l.toNat - 87) else none

/-- Parse a JSON string body (after the opening quote) up to and past the
closing quote.  Strict mode: unescaped control characters are rejected.
`\uXXXX` escapes outside Lean's valid `Char` range degrade to `U+0000`
(a modelling approximation; no claim exercises them). -/
def parseStrBody : Nat → List Char → Option (List Char × List Char)
  | 0, _ => none
  | fuel + 1, cs =>
    match cs with
    | [] => none
    | '"' :: rest => some ([], rest)
    | '\\' :: 'u' :: a :: b :: c :: d :: rest =>
      match hexVal a, hexVal b, hexVal c, hexVal d with
      | some ha, some hb, some hc, some hd =>
        (parseStrBody fuel rest).map (fun p =>
          (Char.ofNat (((ha * 16 + hb) * 16 + hc) * 16 + hd) :: p.1, p.2))
      | _, _, _, _ => none
    | '\\' :: e :: rest =>
      match (match e with
             | '"' => some '"'
             | '\\' => some '\\'
             | '/' => some '/'
             | 'b' => some (Char.ofNat 8)
             | 'f' => some (Char.ofNat 12)
             | 'n' => some '\n'
             | 'r' => some '\r'
             | 't' => some '\t'
             | _ => none : Option Char) with
      | some ch => (parseStrBody fuel rest).map (fun p => (ch :: p.1, p.2))
      | none => none
    | c :: rest =>
      if c.toNat < 32 then none
      else (parseStrBody fuel rest).map (fun p => (c :: p.1, p.2))

mutual

def parseValue : Nat → List Char → Option (JsonValue × List Char)
  | 0, _ => none
  | fuel + 1, cs =>
    match skipWs cs with
    | 'n' :: 'u' :: 'l' :: 'l' :: rest => some (.null, rest)
    | 't' :: 'r' :: 'u' :: 'e' :: rest => some (.bool true, rest)
    | 'f' :: 'a' :: 'l' :: 's' :: 'e' :: rest => some (.bool false, rest)
    | '"' :: rest =>
      (parseStrBody (rest.length + 1) rest).map (fun p => (.str (String.mk p.1), p.2))
    | '[' :: rest =>
      (match skipWs rest with
       | ']' :: r2 => some (.arr [], r2)
       | r2 => (parseElems fuel r2).map (fun p => (.arr p.1, p.2)))
    | '{' :: rest =>
      (match skipWs rest with
       | '}' :: r2 => some (.obj [], r2)
       | r2 => (parseMembers fuel r2).map (fun p => (.obj p.1, p.2)))
    | cs2 => (parseNumCL cs2).map (fun p => (.num p.1, p.2))

def parseElems : Nat → List Char → Option (List JsonValue × List Char)
  | 0, _ => none
  | fuel + 1, cs => do
    let (v, rest) ← parseValue fuel cs
    match skipWs rest with
    | ',' :: r2 => do
      let (vs, r3) ← parseElems fuel r2
      pure (v :: vs, r3)
    | ']' :: r2 => pure ([v], r2)
    | _ => none

def parseMembers : Nat → List Char → Option (List (String × JsonValue) × List Char)
  | 0, _ => none
  | fuel + 1, cs =>
    match skipWs cs with
    | '"' :: rest => do
      let (k, r2) ← parseStrBody (rest.length + 1) rest
      match skipWs r2 with
      | ':' :: r3 => do
        let (v, r4) ← parseValue fuel r3
        match skipWs r4 with
        | ',' :: r5 => do
          let (ms, r6) ← parseMembers fuel r5
          pure ((String.mk k, v) :: ms, r6)
        | '}' :: r5 => pure ([(String.mk k, v)], r5)
        | _ => none
      | _ => none
    | _ => none

end

/-- `json.loads`: parse the whole text as one JSON value, allowing
surrounding whitespace, rejecting trailing data.  The fuel
`2 * length + 2` dominates the recursion depth of any parse of the
text (each two fuel units consume at least one character). -/
def jsonLoads (s : String) : Option JsonValue :=
  match parseValue (2 * s.length + 2) s.data with
  | some (v, rest) => if (skipWs rest).isEmpty then some v else none
  | none => none

/-! ## Python coercions `float(...)` and `str(...)` on decoded values -/

/-- Python `float(string)`: optional sign, digits with optional fraction
and exponent, surrounded by optional whitespace.  The `inf`/`nan` forms
and digit-group underscores are modelled as failures (`ℚ` cannot denote
them; no claim depends on those inputs). -/
def pyFloatOfString (s : String) : Option ℚ :=
  let cs := (pyStrip s).data
  let (sgn, cs1) : ℚ × List Char :=
    match cs with
    | '+' :: r => (1, r)
    | '-' :: r => (-1, r)
    | _ => (1, cs)
  let d1 := cs1.takeWhile Char.isDigit
  let r1 := cs1.dropWhile Char.isDigit
  let contOf : ℚ → List Char → Option ℚ := fun base r =>
    match r with
    | [] => some (sgn * base)
    | 'e' :: rr => (expPart rr).map (fun e => sgn * base * e)
    | 'E' :: rr => (expPart rr).map (fun e => sgn * base * e)
    | _ => none
  match r1 with
  | '.' :: r2 =>
    let d2 := r2.takeWhile Char.isDigit
    let r3 := r2.dropWhile Char.isDigit
    if d1.isEmpty && d2.isEmpty then none
    else contOf ((digitsToNat d1 : ℚ) + (digitsToNat d2 : ℚ) / (10 : ℚ) ^ d2.length) r3
  | _ =>
    if d1.isEmpty then none
    else contOf (digitsToNat d1 : ℚ) r1
where
  expPart (r : List Char) : Option ℚ :=
    let (negE, r1) : Bool × List Char :=
      match r with
      | '+' :: rr => (false, rr)
      | '-' :: rr => (true, rr)
      | _ => (false, r)
    let ds := r1.takeWhile Char.isDigit
    if ds.isEmpty || !(r1.dropWhile Char.isDigit).isEmpty then none
    else some (if negE then ((10 : ℚ) ^ digitsToNat ds)⁻¹ else (10 : ℚ) ^ digitsToNat ds)

/-- Python `float(x)` on a decoded JSON value: numbers pass through,
booleans are `int` subclasses (`1.0`/`0.0`), numeric strings convert,
everything else raises (`none`). -/
def pyFloat : JsonValue → Option ℚ
  | .num q => some q
  | .bool b => some (if b then 1 else 0)
  | .str s => pyFloatOfString s
  | _ => none

mutual

/-- Python `str(x)` on a decoded JSON value.  Scalar renderings are
faithful; numbers and containers are rendered canonically (`repr` of a
Python float/list/dict differs in punctuation detail, which no claim
observes — only whitespace-separated word counts ever matter). -/
def pyStr : JsonValue → String
  | .null => "None"
  | .bool true => "True"
  | .bool false => "False"
  | .num q => toString q.num ++ (if q.den = 1 then "" else "/" ++ toString q.den)
  | .str s => s
  | .arr l => "[" ++ pyStrList l ++ "]"
  | .obj m => "\x7b" ++ pyStrObj m ++ "\x7d"

def pyStrList : List JsonValue → String
  | [] => ""
  | [v] => pyStr v
  | v :: vs => pyStr v ++ ", " ++ pyStrList vs

def pyStrObj : List (String × JsonValue) → String
  | [] => ""
  | [(k, v)] => k ++ ": " ++ pyStr v
  | (k, v) :: ms => k ++ ": " ++ pyStr v ++ ", " ++ pyStrObj ms

end

/-- Python `dict.get(k, d)` on a decoded JSON object.  Building a dict
from an association list lets later bindings overwrite earlier ones, so
the lookup takes the last binding. -/
def jGet (m : List (String × JsonValue)) (k : String) (d : JsonValue) : JsonValue :=
  match (m.filter (fun p => p.1 == k)).getLast? with
  | some p => p.2
  | none => d

/-! ## `app/services/models.py` — `ensure_json` and its recovery tiers -/

/-- One marker attempt of the fenced-block loop in `ensure_json`: Python
splits on the marker and, when at least three parts result (the marker
occurs at least twice), parses the stripped middle part. -/
def tryFence (text marker : String) : Option JsonValue :=
  match pySplitOn text marker with
  | _ :: p1 :: _ :: _ => jsonLoads (pyStrip p1)
  | _ => none

/-- Tier 2 of `ensure_json`: the markers in source order, stopping at the
first that yields a parse. -/
def fenceBlock (text : String) : Option JsonValue :=
  match tryFence text "```json" with
  | some v => some v
  | none =>
    match tryFence text "```JSON" with
    | some v => some v
    | none => tryFence text "```"

def lastIdxOf (c : Char) (cs : List Char) : Option Nat :=
  (cs.reverse.findIdx? (fun x => x == c)).map (fun i => cs.length - 1 - i)

/-- Tier 3 of `ensure_json`: the substring from the first `'\x7b'` to the
last `'\x7d'`, parsed as JSON when the former precedes the latter. -/
def braceSpan (text : String) : Option JsonValue := do
  let cs := text.data
  let s ← cs.findIdx? (fun x => x == '{')
  let e ← lastIdxOf '}' cs
  if s < e then jsonLoads (String.mk ((cs.drop s).take (e - s + 1))) else none

def sepChar (c : Char) : Bool := c == ':' || c.isWhitespace

/-- Case-insensitive literal-prefix match (the patterns carry
`re.IGNORECASE`); returns the remainder on success. -/
def startsWithCI : List Char → List Char → Option (List Char)
  | [], cs => some cs
  | _, [] => none
  | k :: ks, c :: cs => if c.toLower == k then startsWithCI ks cs else none

/-- The capture of `(\d+\.?\d*)`: digits, optionally a dot and more
digits. -/
def numCapture (cs : List Char) : Option String :=
  let d1 := cs.takeWhile Char.isDigit
  if d1.isEmpty then none
  else
    match cs.dropWhile Char.isDigit with
    | '.' :: r2 => some (String.mk (d1 ++ '.' :: r2.takeWhile Char.isDigit))
    | _ => some (String.mk d1)

/-- Try pattern `key[:\s]+(\d+\.?\d*)` at the current position. -/
def attemptNum (key : List Char) (cs : List Char) : Option String := do
  let r1 ← startsWithCI key cs
  if (r1.takeWhile sepChar).isEmpty then none
  else numCapture (r1.dropWhile sepChar)

/-- Try pattern `key[:\s]+"([^"]+)"` at the current position. -/
def attemptStr (key : List Char) (cs : List Char) : Option String := do
  let r1 ← startsWithCI key cs
  if (r1.takeWhile sepChar).isEmpty then none
  else
    match r1.dropWhile sepChar with
    | '"' :: r2 =>
      let body := r2.takeWhile (fun c => !(c == '"'))
      if body.isEmpty then none
      else
        match r2.dropWhile (fun c => !(c == '"')) with
        | '"' :: _ => some (String.mk body)
        | _ => none
    | _ => none

/-- Leftmost match: try the pattern at each successive start position
(the semantics of the first element of `re.findall`). -/
def scanFirst (att : List Char → Option String) : List Char → Option String
  | [] => none
  | c :: cs =>
    match att (c :: cs) with
    | some cap => some cap
    | none => scanFirst att cs

/-- `result[key] = float(value)` with fallback to the string on
`ValueError`. -/
def kvValue (cap : String) : JsonValue :=
  match pyFloatOfString cap with
  | some q => .num q
  | none => .str cap

/-- `_extract_key_value_pairs`: the five patterns in source order, first
match each, assembled into a mapping. -/
def extract_key_value_pairs (text : String) : List (String × JsonValue) :=
  let cs := text.data
  let numEntry := fun (key : String) =>
    (scanFirst (attemptNum key.data) cs).map (fun cap => (key, kvValue cap))
  let strEntry := fun (key : String) =>
    (scanFirst (attemptStr key.data) cs).map (fun cap => (key, kvValue cap))
  [numEntry "score", numEntry "rating", strEntry "reason",
   strEntry "explanation", numEntry "match"].filterMap id

/-- `ensure_json`: blank input yields the empty mapping; otherwise the
four recovery tiers in order — whole text as JSON, fenced code block,
first-to-last brace substring, regex key-value extraction — stopping at
the first success. -/
def ensure_json (response_text : String) : JsonValue :=
  if pyStrip response_text = "" then .obj []
  else
    let text := pyStrip response_text
    match jsonLoads text with
    | some v => v
    | none =>
      match fenceBlock text with
      | some v => v
      | none =>
        match braceSpan text with
        | some v => v
        | none => .obj (extract_key_value_pairs text)

/-- Whether a decoded value is a mapping (a Python dict). -/
def isMapping : JsonValue → Bool
  | .obj _ => true
  | _ => false

/-! ## `app/core/rank.py` — AI layer and orchestration -/

/-- The `ModelResponse` dataclass of `app/services/models.py`, as seen at
the ranker boundary. -/
structure ModelResponse where
  success : Bool
  data : JsonValue
  error : Option String := none

/-- `PlaylistRanker._create_fallback_ranking`. -/
def create_fallback_ranking (track : Track) (base_score : ℚ) : RankedTrack :=
  ⟨track, base_score, "Matches your mood based on musical features",
   ["tempo", "energy", "style"]⟩

/-- `reason.split()` truncation: `" ".join(words[:25])` when more than 25
words, otherwise unchanged. -/
def truncate25 (reason : String) : String :=
  let words := pyWords reason
  if words.length > 25 then joinWords (words.take 25) else reason

/-- The `factors` post-processing of `_parse_ai_response`: a decoded list
keeps its first three entries, stringified; any non-list value is
replaced by the generic one-element list.  (The absent-key case reaches
this through the `[]` default of `data.get("factors", [])`.) -/
def pyFactors (v : JsonValue) : List String :=
  match v with
  | .arr l => (l.take 3).map pyStr
  | _ => ["mood compatibility"]

/-- `PlaylistRanker._parse_ai_response`.  The whole body runs under
`try/except`: a non-dict `data` (`.get` raises `AttributeError`) or a
failing `float(...)` conversion lands in the fallback branch. -/
def parse_ai_response (track : Track) (data : JsonValue) (base_score : ℚ) : RankedTrack :=
  match data with
  | .obj m =>
    match pyFloat (jGet m "score" (.num base_score)) with
    | none => create_fallback_ranking track base_score
    | some s0 =>
      let score := max 0.0 (min 10.0 s0)
      let reason := truncate25 (pyStr (jGet m "reason" (.str "Good match for your mood")))
      let factors := pyFactors (jGet m "factors" (.arr []))
      ⟨track, score, reason, factors⟩
  | _ => create_fallback_ranking track base_score

/-- One iteration of the candidate loop in `rank_and_explain`:
`_get_ai_ranking` guarded by `try/except`.  `oracle i = none` models the
`generate_json` call raising (caught, fallback); a response with
`success = False` yields `None` from `_get_ai_ranking`, hence the
fallback via `ai_result or ...`; a successful response is parsed. -/
def rankStep (oracle : Nat → Option ModelResponse) (track : Track) (base : ℚ)
    (i : Nat) : RankedTrack :=
  match oracle i with
  | none => create_fallback_ranking track base
  | some resp =>
    if resp.success then parse_ai_response track resp.data base
    else create_fallback_ranking track base

/-- The candidate loop, threading the AI-call index. -/
def rankLoop (oracle : Nat → Option ModelResponse) :
    Nat → List (Track × ℚ) → List RankedTrack
  | _, [] => []
  | i, (t, b) :: rest => rankStep oracle t b i :: rankLoop oracle (i + 1) rest

/-- `scored.sort(key=lambda x: x[1], reverse=True)`: Python's stable sort
in descending order is the stable `mergeSort` under this relation. -/
def scoreLe (a b : Track × ℚ) : Bool := decide (b.2 ≤ a.2)

/-- `ranked.sort(key=lambda r: r.score, reverse=True)`. -/
def rankedLe (a b : RankedTrack) : Bool := decide (b.score ≤ a.score)

/-- `PlaylistRanker.rank_and_explain`. -/
def rank_and_explain (oracle : Nat → Option ModelResponse) (mood_profile : MoodProfile)
    (tracks : List Track) (top_k : Nat) : List RankedTrack :=
  if tracks.isEmpty then []
  else
    let scored := tracks.map (fun t => (t, calculate_base_score mood_profile t))
    let sorted := scored.mergeSort scoreLe
    let candidates := sorted.take (min (top_k * 2) sorted.length)
    let ranked := rankLoop oracle 0 candidates
    (ranked.mergeSort rankedLe).take top_k

/-- The reason repair of one `validate_rankings` iteration: truncate to 25
words, and replace a falsy (empty) reason by the generic default
(`r.reason or "Good match for your mood"`). -/
def fix_reason (x : String) : String :=
  if (pyWords x).length > 25 then joinWords ((pyWords x).take 25)
  else if x = "" then "Good match for your mood"
  else x

/-- The factors repair of one `validate_rankings` iteration:
`(r.match_factors or ["compatibility"])[:3]`. -/
def fix_factors (l : List String) : List String :=
  (if l.isEmpty then ["compatibility"] else l).take 3

/-- The loop body of `PlaylistRanker.validate_rankings`. -/
def validate_one (r : RankedTrack) : RankedTrack :=
  ⟨r.track, max 0.0 (min 10.0 r.score), fix_reason r.reason, fix_factors r.match_factors⟩

/-- `PlaylistRanker.validate_rankings`. -/
def validate_rankings (ranked : List RankedTrack) : List RankedTrack :=
  ranked.map validate_one

/-- The RankedTrack invariants stated by the spec: score in [0, 10],
reason of at most 25 words, at most 3 match factors. -/
def RankedOk (r : RankedTrack) : Prop :=
  0 ≤ r.score ∧ r.score ≤ 10 ∧ (pyWords r.reason).length ≤ 25 ∧ r.match_factors.length ≤ 3

/-- Modelled from the spec: pure deterministic base-score ordering — the
candidates sorted by descending base score, truncated to `top_k`, each
carried by the deterministic fallback record built from its base score.
This is the degraded-mode reference behaviour that claim C2 equates with
`rank_and_explain` under an always-failing AI tier. -/
def baseline_ranking (mood_profile : MoodProfile) (tracks : List Track)
    (top_k : Nat) : List RankedTrack :=
  (((tracks.map (fun t => (t, calculate_base_score mood_profile t))).mergeSort
      scoreLe).take top_k).map (fun p => create_fallback_ranking p.1 p.2)

/-! ## Lemmas about character runs and word splitting -/

theorem runsAux_words_ok (p : Char → Bool) (cs : List Char) :
    ∀ acc : List Char, (∀ c ∈ acc, p c = true) →
      ∀ w ∈ runsAux p cs acc, w ≠ [] ∧ ∀ c ∈ w, p c = true := by
  induction cs with
  | nil =>
    intro acc hacc w hw
    by_cases h : acc.isEmpty
    · rw [runsAux, if_pos h] at hw
      simp at hw
    · rw [runsAux, if_neg h] at hw
      rcases List.mem_singleton.mp hw with rfl
      refine ⟨by simpa [List.isEmpty_iff] using h, ?_⟩
      intro c hc
      exact hacc c (List.mem_reverse.mp hc)
  | cons c cs ih =>
    intro acc hacc w hw
    by_cases hpc : p c = true
    · rw [runsAux, if_pos hpc] at hw
      refine ih (c :: acc) ?_ w hw
      intro x hx
      rcases List.mem_cons.mp hx with rfl | hx
      · exact hpc
      · exact hacc x hx
    · rw [runsAux, if_neg hpc] at hw
      by_cases hae : acc.isEmpty
      · rw [if_pos hae] at hw
        exact ih [] (by simp) w hw
      · rw [if_neg hae] at hw
        rcases List.mem_cons.mp hw with rfl | hw
        · refine ⟨by simpa [List.isEmpty_iff] using hae, ?_⟩
          intro x hx
          exact hacc x (List.mem_reverse.mp hx)
        · exact ih [] (by simp) w hw

theorem runsAux_append (p : Char → Bool) (w : List Char) :
    (∀ c ∈ w, p c = true) → ∀ cs acc,
      runsAux p (w ++ cs) acc = runsAux p cs (w.reverse ++ acc) := by
  induction w with
  | nil => intro _ cs acc; simp
  | cons c w ih =>
    intro h cs acc
    have hc : p c = true := h c (by simp)
    rw [List.cons_append, runsAux, if_pos hc,
      ih (fun x hx => h x (by simp [hx])) cs (c :: acc)]
    simp

theorem runsAux_sep (p : Char → Bool) (hsp : p ' ' = false) (cs acc : List Char)
    (hacc : acc.isEmpty = false) :
    runsAux p (' ' :: cs) acc = acc.reverse :: runsAux p cs [] := by
  rw [runsAux, if_neg (by simp [hsp]), if_neg (by simp [hacc])]

/-- Character-list version of `" ".join`. -/
def joinCL : List (List Char) → List Char
  | [] => []
  | [w] => w
  | w :: ws => w ++ ' ' :: joinCL ws

theorem joinWords_data : ∀ ws : List String, (joinWords ws).data = joinCL (ws.map String.data)
  | [] => rfl
  | [_] => rfl
  | w :: w2 :: ws => by
    show ((w ++ " ") ++ joinWords (w2 :: ws)).data = w.data ++ ' ' :: joinCL ((w2 :: ws).map String.data)
    rw [String.data_append, String.data_append, joinWords_data (w2 :: ws)]
    simp

theorem runs_joinCL (p : Char → Bool) (hsp : p ' ' = false) :
    ∀ ws : List (List Char), (∀ w ∈ ws, w ≠ [] ∧ ∀ c ∈ w, p c = true) →
      runs p (joinCL ws) = ws := by
  intro ws
  induction ws with
  | nil => intro _; rfl
  | cons w ws ih =>
    intro h
    have hw := h w (by simp)
    have hwne : (w.reverse ++ ([] : List Char)).isEmpty = false := by
      simp [List.isEmpty_iff, hw.1]
    cases ws with
    | nil =>
      show runs p (joinCL [w]) = [w]
      unfold runs
      rw [show joinCL [w] = w ++ [] from (List.append_nil w).symm,
        runsAux_append p w hw.2 [] [], runsAux, if_neg (by simp [List.isEmpty_iff, hw.1])]
      simp
    | cons w2 ws2 =>
      show runs p (w ++ ' ' :: joinCL (w2 :: ws2)) = w :: w2 :: ws2
      unfold runs
      rw [runsAux_append p w hw.2 _ [], runsAux_sep p hsp _ _ hwne]
      simp only [List.append_nil, List.reverse_reverse]
      exact congrArg _ (ih (fun x hx => h x (by simp [hx])))

theorem pyWords_inv (s : String) :
    ∀ w ∈ pyWords s, w.data ≠ [] ∧ ∀ c ∈ w.data, notWS c = true := by
  intro w hw
  unfold pyWords runs at hw
  rcases List.mem_map.mp hw with ⟨wl, hwl, rfl⟩
  exact runsAux_words_ok notWS s.data [] (by simp) wl hwl

theorem map_mk_data (ws : List String) : (ws.map String.data).map String.mk = ws := by
  rw [List.map_map]
  exact List.map_id'' (fun _ => rfl) ws

theorem pyWords_join (ws : List String)
    (h : ∀ w ∈ ws, w.data ≠ [] ∧ ∀ c ∈ w.data, notWS c = true) :
    pyWords (joinWords ws) = ws := by
  unfold pyWords
  rw [joinWords_data, runs_joinCL notWS (by decide) (ws.map String.data) ?_]
  · exact map_mk_data ws
  · intro wl hwl
    rcases List.mem_map.mp hwl with ⟨w, hwmem, rfl⟩
    exact h w hwmem

theorem pyWords_truncation (s : String) :
    pyWords (joinWords ((pyWords s).take 25)) = (pyWords s).take 25 :=
  pyWords_join _ (fun w hw => pyWords_inv s w (List.take_subset _ _ hw))

theorem truncate25_words_le (s : String) : (pyWords (truncate25 s)).length ≤ 25 := by
  unfold truncate25
  by_cases h : (pyWords s).length > 25
  · rw [if_pos h, pyWords_truncation s]
    simp [List.length_take]
  · rw [if_neg h]
    omega

theorem data_ne_nil_of_ne_empty {s : String} (h : s.data ≠ []) : s ≠ "" := by
  intro he
  rw [he] at h
  exact h rfl

theorem joinWords_ne_empty (w : String) (ws : List String) (hw : w.data ≠ []) :
    joinWords (w :: ws) ≠ "" := by
  cases ws with
  | nil => exact data_ne_nil_of_ne_empty hw
  | cons w2 ws2 =>
    refine data_ne_nil_of_ne_empty ?_
    show ((w ++ " ") ++ joinWords (w2 :: ws2)).data ≠ []
    rw [String.data_append, String.data_append]
    simp [hw]

/-! ## Lemmas about the mood parser -/

theorem maxKey_mem (best : String × Nat) (ps : List (String × Nat)) :
    maxKey best ps = best.1 ∨ maxKey best ps ∈ ps.map Prod.fst := by
  induction ps generalizing best with
  | nil => exact Or.inl rfl
  | cons p ps ih =>
    unfold maxKey
    by_cases h : p.2 > best.2
    · rw [if_pos h]
      rcases ih p with h1 | h1 <;> [right; right] <;> simp [h1]
    · rw [if_neg h]
      rcases ih best with h1 | h1
      · exact Or.inl h1
      · right
        simp [h1]

theorem find_best_match_mem (w : List String) (m : List (String × List String)) (d : String) :
    find_best_match w m d = d ∨ find_best_match w m d ∈ m.map Prod.fst := by
  cases m with
  | nil => exact Or.inl rfl
  | cons q m2 =>
    unfold find_best_match
    by_cases hall :
        ((q :: m2).map (fun p => (p.1, interCount w p.2))).all (fun p => p.2 == 0) = true
    · rw [if_pos hall]
      exact Or.inl rfl
    · rw [if_neg hall]
      simp only [List.map_cons]
      rcases maxKey_mem (q.1, interCount w q.2) (m2.map (fun p => (p.1, interCount w p.2)))
        with h1 | h1
      · right
        rw [h1]
        simp
      · right
        simp only [List.map_map, List.map_cons] at h1 ⊢
        exact List.mem_cons_of_mem _ (by simpa using h1)

theorem detect_energy_mem (w : List String) :
    detect_energy w ∈ (["low", "medium", "high"] : List String) := by
  have hsub : ∀ x ∈ ENERGY_MAP.map Prod.fst, x ∈ (["low", "medium", "high"] : List String) := by
    decide
  rcases find_best_match_mem w ENERGY_MAP "medium" with h | h
  · unfold detect_energy
    rw [h]
    decide
  · exact hsub _ h

theorem detect_valence_mem (w : List String) :
    detect_valence w ∈ (["negative", "neutral", "positive"] : List String) := by
  have hsub : ∀ x ∈ VALENCE_MAP.map Prod.fst,
      x ∈ (["negative", "neutral", "positive"] : List String) := by
    decide
  rcases find_best_match_mem w VALENCE_MAP "neutral" with h | h
  · unfold detect_valence
    rw [h]
    decide
  · exact hsub _ h

theorem detect_tempo_mem (w : List String) :
    detect_tempo w ∈ (["slow", "medium", "fast"] : List String) := by
  have hsub : ∀ x ∈ TEMPO_MAP.map Prod.fst, x ∈ (["slow", "medium", "fast"] : List String) := by
    decide
  rcases find_best_match_mem w TEMPO_MAP "medium" with h | h
  · unfold detect_tempo
    rw [h]
    decide
  · exact hsub _ h

theorem tokenRuns_ok (s : List Char) :
    ∀ w ∈ tokenRuns s, w.data ≠ [] ∧ ∀ c ∈ w.data, isLowerAZ c = true := by
  intro w hw
  unfold tokenRuns at hw
  rcases List.mem_map.mp hw with ⟨wl, hwl, rfl⟩
  rcases List.mem_filter.mp hwl with ⟨hmem, hall⟩
  refine ⟨(runsAux_words_ok isWordChar s [] (by simp) wl hmem).1, ?_⟩
  intro c hc
  exact List.all_eq_true.mp hall c hc

theorem extract_words_ok (t : String) :
    ∀ w ∈ extract_words t,
      w.data ≠ [] ∧ (∀ c ∈ w.data, isLowerAZ c = true) ∧ 3 ≤ w.length := by
  intro w hw
  unfold extract_words at hw
  rcases List.mem_filter.mp (List.mem_dedup.mp hw) with ⟨hmem, hcond⟩
  rcases (Bool.and_eq_true _ _).mp hcond with ⟨hlen, _⟩
  have htok := tokenRuns_ok t.data w hmem
  refine ⟨htok.1, htok.2, ?_⟩
  have := of_decide_eq_true hlen
  omega

theorem toLower_fixed {c : Char} (h : isLowerAZ c = true) : c.toLower = c := by
  simp only [isLowerAZ, Bool.and_eq_true, decide_eq_true_eq] at h
  unfold Char.toLower
  have h97 : 97 ≤ c.toNat := h.1
  rw [if_neg]
  omega

theorem str_toLower_fixed {s : String} (h : ∀ c ∈ s.data, isLowerAZ c = true) :
    pyLower s = s := by
  unfold pyLower
  conv_rhs => rw [show s = ⟨s.data⟩ from rfl]
  exact congrArg String.mk
    ((List.map_congr_left (fun c hc => toLower_fixed (h c hc))).trans (List.map_id _))

/-! ## Lemmas about scoring and the ranker -/

theorem q_zero : (0.0 : ℚ) = 0 := by norm_num

theorem q_ten : (10.0 : ℚ) = 10 := by norm_num

theorem clamp_mem (x : ℚ) : 0 ≤ max 0.0 (min 10.0 x) ∧ max 0.0 (min 10.0 x) ≤ 10 := by
  rw [q_zero, q_ten]
  constructor
  · exact le_max_left _ _
  · exact max_le (by norm_num) (min_le_left _ _)

theorem clamp_idem (x : ℚ) :
    max 0.0 (min 10.0 (max 0.0 (min 10.0 x))) = max 0.0 (min 10.0 x) := by
  rcases clamp_mem x with ⟨h0, h10⟩
  rw [q_zero, q_ten] at *
  rw [min_eq_right h10, max_eq_right h0]

theorem calculate_base_score_mem (mood : MoodProfile) (track : Track) :
    0 ≤ calculate_base_score mood track ∧ calculate_base_score mood track ≤ 10 := by
  unfold calculate_base_score
  exact clamp_mem _

theorem match_energy_nonneg (e : String) (t : Track) : 0 ≤ match_energy e t := by
  unfold match_energy
  rw [q_zero]
  exact le_max_left _ _

theorem match_valence_nonneg (v : String) (t : Track) : 0 ≤ match_valence v t := by
  unfold match_valence
  rw [q_zero]
  exact le_max_left _ _

theorem match_tempo_nonneg (mt tt : String) : 0 ≤ match_tempo mt tt := by
  unfold match_tempo
  dsimp only
  split_ifs <;> norm_num

theorem match_genres_nonneg (gs : List String) (g : String) : 0 ≤ match_genres gs g := by
  unfold match_genres
  dsimp only
  split_ifs <;> norm_num

theorem match_keywords_nonneg (ks : List String) (t : Track) : 0 ≤ match_keywords ks t := by
  unfold match_keywords
  split_ifs
  · norm_num
  · refine le_min (by norm_num) ?_
    positivity

theorem scoreLe_trans (a b c : Track × ℚ) (hab : scoreLe a b = true)
    (hbc : scoreLe b c = true) : scoreLe a c = true := by
  simp only [scoreLe, decide_eq_true_eq] at *
  linarith

theorem scoreLe_total (a b : Track × ℚ) : (scoreLe a b || scoreLe b a) = true := by
  simp only [scoreLe, Bool.or_eq_true, decide_eq_true_eq]
  exact le_total _ _

theorem rankedLe_trans (a b c : RankedTrack) (hab : rankedLe a b = true)
    (hbc : rankedLe b c = true) : rankedLe a c = true := by
  simp only [rankedLe, decide_eq_true_eq] at *
  linarith

theorem rankedLe_total (a b : RankedTrack) : (rankedLe a b || rankedLe b a) = true := by
  simp only [rankedLe, Bool.or_eq_true, decide_eq_true_eq]
  exact le_total _ _

theorem rankLoop_length (oracle : Nat → Option ModelResponse) :
    ∀ (i : Nat) (l : List (Track × ℚ)), (rankLoop oracle i l).length = l.length := by
  intro i l
  induction l generalizing i with
  | nil => rfl
  | cons p l ih => simp [rankLoop, ih]

theorem rankLoop_mem (oracle : Nat → Option ModelResponse) :
    ∀ (i : Nat) (l : List (Track × ℚ)) (r : RankedTrack), r ∈ rankLoop oracle i l →
      ∃ p ∈ l, ∃ j, r = rankStep oracle p.1 p.2 j := by
  intro i l
  induction l generalizing i with
  | nil => intro r hr; simp [rankLoop] at hr
  | cons p l ih =>
    intro r hr
    rcases List.mem_cons.mp hr with rfl | hr
    · exact ⟨p, by simp, i, rfl⟩
    · rcases ih (i + 1) r hr with ⟨q, hq, j, hj⟩
      exact ⟨q, by simp [hq], j, hj⟩

theorem rankLoop_fail (oracle : Nat → Option ModelResponse)
    (hf : ∀ i, ∃ resp, oracle i = some resp ∧ resp.success = false) :
    ∀ (i : Nat) (l : List (Track × ℚ)),
      rankLoop oracle i l = l.map (fun p => create_fallback_ranking p.1 p.2) := by
  intro i l
  induction l generalizing i with
  | nil => rfl
  | cons p l ih =>
    rcases hf i with ⟨resp, hor, hsf⟩
    simp only [rankLoop, List.map_cons]
    rw [ih (i + 1)]
    unfold rankStep
    rw [hor]
    simp [hsf]

theorem fallback_ok {b : ℚ} (h0 : 0 ≤ b) (h10 : b ≤ 10) (t : Track) :
    RankedOk (create_fallback_ranking t b) := by
  refine ⟨h0, h10, ?_, ?_⟩
  · show (pyWords "Matches your mood based on musical features").length ≤ 25
    decide
  · show (["tempo", "energy", "style"] : List String).length ≤ 3
    decide

theorem pyFactors_le (v : JsonValue) : (pyFactors v).length ≤ 3 := by
  cases v <;> simp [pyFactors, List.length_take]

theorem parse_ai_response_ok (t : Track) (d : JsonValue) (b : ℚ) (h0 : 0 ≤ b)
    (h10 : b ≤ 10) : RankedOk (parse_ai_response t d b) := by
  cases d with
  | obj m =>
    simp only [parse_ai_response]
    cases hpf : pyFloat (jGet m "score" (.num b)) with
    | none => exact fallback_ok h0 h10 t
    | some s0 =>
      exact ⟨(clamp_mem s0).1, (clamp_mem s0).2, truncate25_words_le _, pyFactors_le _⟩
  | null => exact fallback_ok h0 h10 t
  | bool v => exact fallback_ok h0 h10 t
  | num q => exact fallback_ok h0 h10 t
  | str s => exact fallback_ok h0 h10 t
  | arr l => exact fallback_ok h0 h10 t

theorem rankStep_ok (oracle : Nat → Option ModelResponse) (t : Track) (b : ℚ) (i : Nat)
    (h0 : 0 ≤ b) (h10 : b ≤ 10) : RankedOk (rankStep oracle t b i) := by
  unfold rankStep
  cases oracle i with
  | none => exact fallback_ok h0 h10 t
  | some resp =>
    by_cases hs : resp.success = true
    · simp only [hs, if_true]
      exact parse_ai_response_ok t resp.data b h0 h10
    · simp only [hs, if_false]
      exact fallback_ok h0 h10 t

theorem fix_reason_idem (s : String) : fix_reason (fix_reason s) = fix_reason s := by
  by_cases h : (pyWords s).length > 25
  · have htr := pyWords_truncation s
    have hlen : (pyWords (joinWords ((pyWords s).take 25))).length = 25 := by
      rw [htr, List.length_take]
      omega
    have hcons : ∃ w ws, (pyWords s).take 25 = w :: ws := by
      cases hc : (pyWords s).take 25 with
      | nil =>
        rw [htr, hc] at hlen
        simp at hlen
      | cons a as => exact ⟨a, as, rfl⟩
    obtain ⟨w, ws, hc⟩ := hcons
    have hw : w ∈ pyWords s := List.take_subset _ _ (hc ▸ List.mem_cons_self w ws)
    have hne : joinWords ((pyWords s).take 25) ≠ "" := by
      rw [hc]
      exact joinWords_ne_empty w ws (pyWords_inv s w hw).1
    rw [show fix_reason s = joinWords ((pyWords s).take 25) from if_pos h]
    unfold fix_reason
    rw [if_neg (by omega), if_neg hne]
  · rw [show fix_reason s = if s = "" then "Good match for your mood" else s from if_neg h]
    by_cases he : s = ""
    · rw [if_pos he]
      unfold fix_reason
      rw [if_neg (by decide), if_neg (by decide)]
    · rw [if_neg he]
      unfold fix_reason
      rw [if_neg h, if_neg he]

theorem fix_factors_idem (l : List String) : fix_factors (fix_factors l) = fix_factors l := by
  unfold fix_factors
  by_cases h : l.isEmpty
  · rw [if_pos h]
    decide
  · rw [if_neg h]
    cases l with
    | nil => simp at h
    | cons x xs =>
      rw [if_neg (by simp), List.take_take]
      norm_num

theorem validate_one_idem (r : RankedTrack) : validate_one (validate_one r) = validate_one r := by
  unfold validate_one
  simp only [RankedTrack.mk.injEq]
  exact ⟨trivial, clamp_idem r.score, fix_reason_idem r.reason, fix_factors_idem r.match_factors⟩

/-! ## Structure lemmas for `rank_and_explain` -/

theorem rank_and_explain_empty (oracle : Nat → Option ModelResponse) (mood : MoodProfile)
    (k : Nat) : rank_and_explain oracle mood [] k = [] := rfl

theorem rank_and_explain_length (oracle : Nat → Option ModelResponse) (mood : MoodProfile)
    (tracks : List Track) (k : Nat) :
    (rank_and_explain oracle mood tracks k).length = min k tracks.length := by
  by_cases h : tracks.isEmpty
  · rw [show tracks = [] from List.isEmpty_iff.mp h, rank_and_explain_empty]
    simp
  · unfold rank_and_explain
    rw [if_neg (by simp [h])]
    simp only [List.length_take, List.length_mergeSort, rankLoop_length, List.length_map]
    omega

theorem rank_and_explain_ok (oracle : Nat → Option ModelResponse) (mood : MoodProfile)
    (tracks : List Track) (k : Nat) :
    ∀ r ∈ rank_and_explain oracle mood tracks k, RankedOk r := by
  intro r hr
  by_cases h : tracks.isEmpty
  · rw [show tracks = [] from List.isEmpty_iff.mp h, rank_and_explain_empty] at hr
    simp at hr
  · unfold rank_and_explain at hr
    rw [if_neg (by simp [h])] at hr
    have hr2 := (List.mergeSort_perm _ rankedLe).mem_iff.mp (List.take_subset _ _ hr)
    rcases rankLoop_mem oracle 0 _ r hr2 with ⟨p, hp, j, rfl⟩
    have hp2 := (List.mergeSort_perm _ scoreLe).mem_iff.mp (List.take_subset _ _ hp)
    rcases List.mem_map.mp hp2 with ⟨t, _, rfl⟩
    exact rankStep_ok oracle t _ j (calculate_base_score_mem mood t).1
      (calculate_base_score_mem mood t).2

theorem rank_and_explain_sorted (oracle : Nat → Option ModelResponse) (mood : MoodProfile)
    (tracks : List Track) (k : Nat) :
    (rank_and_explain oracle mood tracks k).Pairwise (fun a b => b.score ≤ a.score) := by
  by_cases h : tracks.isEmpty
  · rw [show tracks = [] from List.isEmpty_iff.mp h, rank_and_explain_empty]
    simp
  · unfold rank_and_explain
    rw [if_neg (by simp [h])]
    refine List.Pairwise.sublist (List.take_sublist _ _) ?_
    refine (List.sorted_mergeSort rankedLe_trans rankedLe_total _).imp ?_
    intro a b hab
    simpa [rankedLe, decide_eq_true_eq] using hab

/-! ## Shared concrete inputs for witnesses -/

def sampleTrack : Track :=
  { title := "Sample Song", artist := "Sample Artist", genre := some "pop",
    tags := ["dance"], decade := some "1990s", tempo := some "fast",
    features := [("energy", 0.9), ("valence", 0.8)] }

def sampleProfile : MoodProfile :=
  ⟨"high", "positive", "fast", ["pop"], ["happy"], "happy"⟩

def failingOracle : Nat → Option ModelResponse :=
  fun _ => some ⟨false, .null, some "API error"⟩

/-! ## Claim theorems -/

/-- C1: for every AI behaviour, mood profile, track list and non-negative
`top_k`, `rank_and_explain` returns an ordered (descending-score) sequence
of exactly `min top_k tracks.length` records (in particular at most that
many), each obeying the RankedTrack invariants (score in [0, 10], reason
of at most 25 words, at most 3 match factors), and the empty track list
yields the empty result without error. -/
theorem C1_rank_and_explain_contract (oracle : Nat → Option ModelResponse)
    (mood : MoodProfile) (tracks : List Track) (top_k : Nat) :
    (rank_and_explain oracle mood tracks top_k).length = min top_k tracks.length ∧
    (∀ r ∈ rank_and_explain oracle mood tracks top_k, RankedOk r) ∧
    (rank_and_explain oracle mood tracks top_k).Pairwise
      (fun a b => b.score ≤ a.score) ∧
    rank_and_explain oracle mood [] top_k = [] :=
  ⟨rank_and_explain_length oracle mood tracks top_k,
   rank_and_explain_ok oracle mood tracks top_k,
   rank_and_explain_sorted oracle mood tracks top_k,
   rank_and_explain_empty oracle mood top_k⟩

/-- Witness for C1 at a concrete oracle, profile, track list and `top_k`. -/
theorem C1_rank_and_explain_contract_witness :
    (rank_and_explain (fun _ => none) sampleProfile [sampleTrack] 1).length = min 1 1 ∧
    (∀ r ∈ rank_and_explain (fun _ => none) sampleProfile [sampleTrack] 1, RankedOk r) ∧
    (rank_and_explain (fun _ => none) sampleProfile [sampleTrack] 1).Pairwise
      (fun a b => b.score ≤ a.score) ∧
    rank_and_explain (fun _ => none) sampleProfile [] 1 = [] :=
  C1_rank_and_explain_contract (fun _ => none) sampleProfile [sampleTrack] 1

/-- The additive clamp that `_calculate_base_score` applies to its five
signal contributions. -/
def scoreCombine (e v t g k : ℚ) : ℚ :=
  max 0.0 (min 10.0 (5.0 + e + v + t + g + k))

theorem clamp_mono {a b : ℚ} (h : a ≤ b) :
    max 0.0 (min 10.0 a) ≤ max 0.0 (min 10.0 b) :=
  max_le_max le_rfl (min_le_min le_rfl h)

/-- C3: the base score always lies in [0, 10]; it is the clamped sum of
the five signal contributions, each of which is non-negative, and the
clamped sum is monotonically non-decreasing in each contribution with the
others held fixed. -/
theorem C3_base_score_bounds_monotone (mood : MoodProfile) (track : Track) :
    (0 ≤ calculate_base_score mood track ∧ calculate_base_score mood track ≤ 10) ∧
    calculate_base_score mood track =
      scoreCombine (match_energy mood.energy track) (match_valence mood.valence track)
        (match_tempo mood.tempo (track.tempo.getD ""))
        (match_genres mood.genres (track.genre.getD ""))
        (match_keywords mood.keywords track) ∧
    (0 ≤ match_energy mood.energy track ∧ 0 ≤ match_valence mood.valence track ∧
      0 ≤ match_tempo mood.tempo (track.tempo.getD "") ∧
      0 ≤ match_genres mood.genres (track.genre.getD "") ∧
      0 ≤ match_keywords mood.keywords track) ∧
    (∀ e e' v t g k : ℚ, e ≤ e' → scoreCombine e v t g k ≤ scoreCombine e' v t g k) ∧
    (∀ e v v' t g k : ℚ, v ≤ v' → scoreCombine e v t g k ≤ scoreCombine e v' t g k) ∧
    (∀ e v t t' g k : ℚ, t ≤ t' → scoreCombine e v t g k ≤ scoreCombine e v t' g k) ∧
    (∀ e v t g g' k : ℚ, g ≤ g' → scoreCombine e v t g k ≤ scoreCombine e v t g' k) ∧
    (∀ e v t g k k' : ℚ, k ≤ k' → scoreCombine e v t g k ≤ scoreCombine e v t g k') := by
  refine ⟨calculate_base_score_mem mood track, rfl,
    ⟨match_energy_nonneg _ _, match_valence_nonneg _ _, match_tempo_nonneg _ _,
     match_genres_nonneg _ _, match_keywords_nonneg _ _⟩, ?_, ?_, ?_, ?_, ?_⟩ <;>
    · intro a b c d e f h
      exact clamp_mono (by linarith)

/-- Witness for C3 at a concrete profile, track and contribution values. -/
theorem C3_base_score_bounds_monotone_witness :
    (0 ≤ calculate_base_score sampleProfile sampleTrack ∧
      calculate_base_score sampleProfile sampleTrack ≤ 10) ∧
    scoreCombine 0 1 1 1 1 ≤ scoreCombine 1 1 1 1 1 :=
  ⟨(C3_base_score_bounds_monotone sampleProfile sampleTrack).1,
   (C3_base_score_bounds_monotone sampleProfile sampleTrack).2.2.2.1 0 1 1 1 1 1
     (by norm_num)⟩

/-- C4: `parse` is total, its three categorical fields always take values
in the enumerated vocabularies, and blank input yields exactly the
all-default profile. -/
theorem C4_parse_vocabulary (s : String) :
    (parse s).energy ∈ (["low", "medium", "high"] : List String) ∧
    (parse s).valence ∈ (["negative", "neutral", "positive"] : List String) ∧
    (parse s).tempo ∈ (["slow", "medium", "fast"] : List String) ∧
    (pyStrip s = "" → parse s = defaultProfile) ∧
    parse "" = defaultProfile ∧
    defaultProfile = ⟨"medium", "neutral", "medium", [], [], ""⟩ := by
  by_cases h : pyStrip s = ""
  · unfold parse
    rw [if_pos h]
    exact ⟨by decide, by decide, by decide, fun _ => rfl, by decide, rfl⟩
  · unfold parse
    rw [if_neg h]
    exact ⟨detect_energy_mem _, detect_valence_mem _, detect_tempo_mem _,
      fun hc => absurd hc h, by decide, rfl⟩

/-- Witness for C4 at a whitespace-only input. -/
theorem C4_parse_vocabulary_witness :
    parse "   " = defaultProfile ∧
    (parse "happy fast pop").energy ∈ (["low", "medium", "high"] : List String) :=
  ⟨(C4_parse_vocabulary "   ").2.2.2.1 rfl, (C4_parse_vocabulary "happy fast pop").1⟩

/-- C9: `validate_rankings` is idempotent — validating twice equals
validating once, element-wise. -/
theorem C9_validate_rankings_idempotent (ranked : List RankedTrack) :
    validate_rankings (validate_rankings ranked) = validate_rankings ranked := by
  unfold validate_rankings
  rw [List.map_map]
  exact List.map_congr_left (fun r _ => validate_one_idem r)

/-- C2: when every AI call returns a response with `success = False`, the
ranker degrades to pure deterministic base-score ordering: the output
equals the baseline (the top `min top_k (tracks.length)` tracks by
descending base score, each carried by the deterministic fallback
record); every returned record's score is its track's base score, with
the fixed fallback reason and match factors; the scores are descending;
and no AI-call error is surfaced (the function returns this normal value
for every such oracle). -/
theorem C2_always_failing_ai_is_baseline (oracle : Nat → Option ModelResponse)
    (mood : MoodProfile) (tracks : List Track) (top_k : Nat) (hk : 0 < top_k)
    (hfail : ∀ i, ∃ resp, oracle i = some resp ∧ resp.success = false) :
    rank_and_explain oracle mood tracks top_k = baseline_ranking mood tracks top_k ∧
    (∀ r ∈ rank_and_explain oracle mood tracks top_k,
      r.score = calculate_base_score mood r.track ∧
      r.reason = "Matches your mood based on musical features" ∧
      r.match_factors = ["tempo", "energy", "style"]) ∧
    (rank_and_explain oracle mood tracks top_k).Pairwise
      (fun a b => b.score ≤ a.score) := by
  have main : rank_and_explain oracle mood tracks top_k =
      baseline_ranking mood tracks top_k := by
    by_cases h : tracks.isEmpty
    · rw [show tracks = [] from List.isEmpty_iff.mp h]
      simp [rank_and_explain, baseline_ranking, List.mergeSort_nil]
    · unfold rank_and_explain baseline_ranking
      rw [if_neg (by simp [h])]
      dsimp only
      set scored := tracks.map (fun t => (t, calculate_base_score mood t)) with hscored
      have hsorted : (scored.mergeSort scoreLe).Pairwise (fun a b => scoreLe a b = true) :=
        List.sorted_mergeSort scoreLe_trans scoreLe_total scored
      have hcand :
          ((scored.mergeSort scoreLe).take
            (min (top_k * 2) (scored.mergeSort scoreLe).length)).Pairwise
            (fun a b => scoreLe a b = true) :=
        List.Pairwise.sublist (List.take_sublist _ _) hsorted
      rw [rankLoop_fail oracle hfail 0]
      have hmapped :
          (((scored.mergeSort scoreLe).take
            (min (top_k * 2) (scored.mergeSort scoreLe).length)).map
              (fun p => create_fallback_ranking p.1 p.2)).Pairwise
            (fun a b => rankedLe a b = true) := by
        refine List.Pairwise.map _ ?_ hcand
        intro a b hab
        simpa [rankedLe, scoreLe, create_fallback_ranking] using hab
      rw [List.mergeSort_of_sorted hmapped, ← List.map_take, List.take_take]
      congr 1
      rw [List.take_eq_take]
      simp only [List.length_mergeSort, List.length_map]
      omega
  refine ⟨main, ?_, rank_and_explain_sorted oracle mood tracks top_k⟩
  intro r hr
  rw [main] at hr
  unfold baseline_ranking at hr
  rcases List.mem_map.mp hr with ⟨p, hp, rfl⟩
  have hp2 := (List.mergeSort_perm _ scoreLe).mem_iff.mp (List.take_subset _ _ hp)
  rcases List.mem_map.mp hp2 with ⟨t, _, rfl⟩
  exact ⟨rfl, rfl, rfl⟩

/-- Witness for C2 at a concrete always-failing oracle and inputs. -/
theorem C2_always_failing_ai_is_baseline_witness :
    rank_and_explain failingOracle sampleProfile [sampleTrack] 1 =
      baseline_ranking sampleProfile [sampleTrack] 1 :=
  (C2_always_failing_ai_is_baseline failingOracle sampleProfile [sampleTrack] 1
    (by norm_num) (fun _ => ⟨⟨false, .null, some "API error"⟩, rfl, rfl⟩)).1

/-- Modelled from the spec (§4.2): the tempo-match table over the actual
track vocabulary `{slow, mid, fast}` after normalization (mood `medium`
corresponds to track `mid`): 1.5 on the diagonal, 0.5 for adjacent
categories (slow↔medium, medium↔fast), else 0. -/
def specTempoScore (mt tt : String) : ℚ :=
  match mt, tt with
  | "slow", "slow" => 1.5
  | "medium", "mid" => 1.5
  | "fast", "fast" => 1.5
  | "slow", "mid" => 0.5
  | "medium", "slow" => 0.5
  | "medium", "fast" => 0.5
  | "fast", "mid" => 0.5
  | _, _ => 0.0

/-- C5 counterexample: the claim includes track tempo `"medium"` in the
track vocabulary and predicts +1.5 for mood `medium` against track
`medium` (same category); the code returns 0 there, because `"medium"`
is not in the track tempo sequence `["slow", "mid", "fast"]`. -/
theorem C5_counterexample_medium_medium :
    match_tempo "medium" "medium" = 0 ∧ (0 : ℚ) ≠ 1.5 :=
  ⟨Eq.trans (show match_tempo "medium" "medium" = 0.0 from rfl) q_zero, by norm_num⟩

/-- C5 amended: over the track vocabulary `{slow, mid, fast}` the
tempo-match signal is exactly the spec's table (+1.5 on same category
after normalizing track `mid` to mood `medium`, +0.5 on adjacent
categories, else 0); the track tempo `"medium"` is outside the track
vocabulary and always scores 0. -/
theorem C5_amended_tempo_table :
    (∀ mt ∈ (["slow", "medium", "fast"] : List String),
      ∀ tt ∈ (["slow", "mid", "fast"] : List String),
        match_tempo mt tt = specTempoScore mt tt) ∧
    (∀ mt ∈ (["slow", "medium", "fast"] : List String),
      match_tempo mt "medium" = 0) := by
  constructor
  · intro mt hmt tt htt
    fin_cases hmt <;> fin_cases htt <;> rfl
  · intro mt hmt
    fin_cases hmt <;> exact Eq.trans (show match_tempo _ "medium" = 0.0 from rfl) q_zero

/-- Witness for C5 amended at concrete vocabulary entries. -/
theorem C5_amended_tempo_table_witness :
    match_tempo "medium" "mid" = specTempoScore "medium" "mid" ∧
    match_tempo "fast" "medium" = 0 :=
  ⟨C5_amended_tempo_table.1 "medium" (by decide) "mid" (by decide),
   C5_amended_tempo_table.2 "fast" (by decide)⟩

/-- C6 counterexample: for a successful recovery whose mapping has no
`"factors"` key, the code produces the empty factors list (via the `[]`
default of `data.get("factors", [])`), not the generic one-element list
the claim asserts. -/
theorem C6_counterexample_absent_factors :
    (parse_ai_response sampleTrack (.obj [("score", .num 7)]) 5).match_factors = [] ∧
    (parse_ai_response sampleTrack (.obj [("score", .num 7)]) 5).match_factors.length ≠ 1 := by
  refine ⟨by decide, by decide⟩

/-- C6 amended: when AI recovery succeeds (`success = true` with a dict
`data`) and the recovered score converts to a number, the produced
record has its score clamped to [0, 10], its reason truncated to at most
25 words, and its match factors equal to the stringified first at-most-3
entries of `factors` when `factors` decodes to a list (an absent key
defaults to the empty list), and to the generic one-element list when
`factors` is present but not a list; in particular there are never more
than 3 factors. -/
theorem C6_amended_parse_ai_response (track : Track) (m : List (String × JsonValue))
    (base s0 : ℚ) (hs : pyFloat (jGet m "score" (.num base)) = some s0) :
    (parse_ai_response track (.obj m) base).score = max 0.0 (min 10.0 s0) ∧
    0 ≤ (parse_ai_response track (.obj m) base).score ∧
    (parse_ai_response track (.obj m) base).score ≤ 10 ∧
    (pyWords (parse_ai_response track (.obj m) base).reason).length ≤ 25 ∧
    (parse_ai_response track (.obj m) base).match_factors =
      pyFactors (jGet m "factors" (.arr [])) ∧
    (∀ l, jGet m "factors" (.arr []) = .arr l →
      (parse_ai_response track (.obj m) base).match_factors = (l.take 3).map pyStr) ∧
    (jGet m "factors" (.arr []) = .arr [] →
      (parse_ai_response track (.obj m) base).match_factors = []) ∧
    (parse_ai_response track (.obj m) base).match_factors.length ≤ 3 := by
  have heq : parse_ai_response track (.obj m) base =
      ⟨track, max 0.0 (min 10.0 s0),
       truncate25 (pyStr (jGet m "reason" (.str "Good match for your mood"))),
       pyFactors (jGet m "factors" (.arr []))⟩ := by
    simp only [parse_ai_response, hs]
  rw [heq]
  refine ⟨rfl, (clamp_mem s0).1, (clamp_mem s0).2, truncate25_words_le _, rfl, ?_, ?_,
    pyFactors_le _⟩
  · intro l hl
    rw [hl]
    rfl
  · intro h0
    rw [h0]
    rfl

/-- Witness for C6 amended at a concrete recovered mapping. -/
theorem C6_amended_parse_ai_response_witness :
    (parse_ai_response sampleTrack
      (.obj [("score", .num 7), ("factors", .arr [.str "tempo"])]) 5).score =
      max 0.0 (min 10.0 7) ∧
    (parse_ai_response sampleTrack
      (.obj [("score", .num 7), ("factors", .arr [.str "tempo"])]) 5).match_factors.length ≤ 3 :=
  ⟨(C6_amended_parse_ai_response sampleTrack
      [("score", .num 7), ("factors", .arr [.str "tempo"])] 5 7 rfl).1,
   (C6_amended_parse_ai_response sampleTrack
      [("score", .num 7), ("factors", .arr [.str "tempo"])] 5 7 rfl).2.2.2.2.2.2.2⟩

/-- C7 counterexample: on the input `"42"` the whole-text JSON tier
succeeds with the number 42, so `ensure_json` returns a non-mapping
value — the claim's "returns a mapping" fails. -/
theorem C7_counterexample_scalar_json :
    ensure_json "42" = JsonValue.num 42 ∧ isMapping (ensure_json "42") = false :=
  ⟨rfl, rfl⟩

/-- C7 amended: `ensure_json` is total and tries its four recovery tiers
in order, stopping at the first success — whole-text JSON parse, fenced
code block, first-to-last-brace substring, regex key-value extraction —
returning the decoded JSON value (a mapping only when the recovered JSON
is an object); blank input, or all tiers failing, yields the empty
mapping. -/
theorem C7_amended_ensure_json_tiers (s : String) :
    (pyStrip s = "" → ensure_json s = .obj []) ∧
    (∀ v, jsonLoads (pyStrip s) = some v → ensure_json s = v) ∧
    (jsonLoads (pyStrip s) = none → ∀ v, fenceBlock (pyStrip s) = some v →
      ensure_json s = v) ∧
    (jsonLoads (pyStrip s) = none → fenceBlock (pyStrip s) = none →
      ∀ v, braceSpan (pyStrip s) = some v → ensure_json s = v) ∧
    (jsonLoads (pyStrip s) = none → fenceBlock (pyStrip s) = none →
      braceSpan (pyStrip s) = none →
      ensure_json s = .obj (extract_key_value_pairs (pyStrip s))) ∧
    (jsonLoads (pyStrip s) = none → fenceBlock (pyStrip s) = none →
      braceSpan (pyStrip s) = none → extract_key_value_pairs (pyStrip s) = [] →
      ensure_json s = .obj []) := by
  by_cases h : pyStrip s = ""
  · have he : ensure_json s = .obj [] := by
      unfold ensure_json
      rw [if_pos h]
    refine ⟨fun _ => he, ?_, ?_, ?_, ?_, ?_⟩
    · intro v hv
      rw [h, show jsonLoads "" = none from rfl] at hv
      exact Option.noConfusion hv
    · intro _ v hv
      rw [h, show fenceBlock "" = none from rfl] at hv
      exact Option.noConfusion hv
    · intro _ _ v hv
      rw [h, show braceSpan "" = none from rfl] at hv
      exact Option.noConfusion hv
    · intro _ _ _
      rw [he, h]
      rfl
    · intro _ _ _ _
      exact he
  · unfold ensure_json
    rw [if_neg h]
    refine ⟨fun hc => absurd hc h, ?_, ?_, ?_, ?_, ?_⟩
    · intro v hv
      simp only [hv]
    · intro h1 v hv
      simp only [h1, hv]
    · intro h1 h2 v hv
      simp only [h1, h2, hv]
    · intro h1 h2 h3
      simp only [h1, h2, h3]
    · intro h1 h2 h3 h4
      simp only [h1, h2, h3, h4]

/-- Witness for C7 amended: a text where tiers 1–3 fail and the regex
tier recovers `score = 7.5`. -/
theorem C7_amended_ensure_json_tiers_witness :
    ensure_json "no json at all but score: 7.5 here" =
      .obj (extract_key_value_pairs (pyStrip "no json at all but score: 7.5 here")) :=
  (C7_amended_ensure_json_tiers "no json at all but score: 7.5 here").2.2.2.2.1
    rfl rfl rfl

/-- The scenario input of C8 (a fenced block whose `"```json"` marker
occurs only once, with a real newline before and after the object). -/
def c8Input : String :=
  "Here you go: ```json\n\x7b\"score\": 8.2, \"reason\": \"great\", \"factors\": [\"tempo\"]\x7d\n```"

/-- The mapping the C8 scenario recovers. -/
def c8Expected : JsonValue :=
  .obj [("score", .num 8.2), ("reason", .str "great"), ("factors", .arr [.str "tempo"])]

/-- C8 counterexample: on the scenario input the fenced-block tier fails
(`"```json"` occurs once, so its split has only two parts, and the bare
triple-backtick split leaves a `json` tag prefix that does not parse),
while the whole-text tier also fails; recovery is NOT via tier 2. -/
theorem C8_counterexample_fence_fails :
    fenceBlock (pyStrip c8Input) = none ∧ jsonLoads (pyStrip c8Input) = none :=
  ⟨rfl, rfl⟩

/-- C8 amended: the scenario input does recover exactly
`{score: 8.2, reason: "great", factors: ["tempo"]}`, but via the
first-to-last-brace tier (tier 3): tiers 1 and 2 both fail on it. -/
theorem C8_amended_brace_recovery :
    ensure_json c8Input = c8Expected ∧
    jsonLoads c8Input = none ∧
    fenceBlock c8Input = none ∧
    braceSpan c8Input = some c8Expected := by
  have harith : (((8 : ℕ) : ℚ) + ((2 : ℕ) : ℚ) / (10 : ℚ) ^ (1 : ℕ)) = (8.2 : ℚ) := by
    push_cast
    norm_num
  have h1 : ensure_json c8Input =
      JsonValue.obj [("score", JsonValue.num (((8 : ℕ) : ℚ) + ((2 : ℕ) : ℚ) / (10 : ℚ) ^ (1 : ℕ))),
        ("reason", JsonValue.str "great"), ("factors", JsonValue.arr [JsonValue.str "tempo"])] :=
    rfl
  have h2 : braceSpan c8Input =
      some (JsonValue.obj
        [("score", JsonValue.num (((8 : ℕ) : ℚ) + ((2 : ℕ) : ℚ) / (10 : ℚ) ^ (1 : ℕ))),
         ("reason", JsonValue.str "great"), ("factors", JsonValue.arr [JsonValue.str "tempo"])]) :=
    rfl
  refine ⟨?_, rfl, rfl, ?_⟩
  · rw [h1, harith]
    rfl
  · rw [h2, harith]
    rfl

/-- If every mood genre is a pure lowercase `[a-z]` token and `tg`
(itself unchanged by lowercasing) is not among them, the verbatim +1.0
branch of `_match_genres` cannot fire: the result is 0 or 0.5. -/
theorem match_genres_ne_one (gs : List String)
    (hg : ∀ g ∈ gs, ∀ c ∈ g.data, isLowerAZ c = true)
    (tg : String) (htg : tg ∉ gs) (htgl : pyLower tg = tg) :
    match_genres gs tg ≠ 1 := by
  unfold match_genres
  dsimp only
  split_ifs with h1 h2 h3
  · norm_num
  · exfalso
    have hlow : gs.map pyLower = gs :=
      (List.map_congr_left fun g hgm => str_toLower_fixed (hg g hgm)).trans (List.map_id gs)
    rw [hlow, htgl] at h2
    exact htg (List.elem_iff.mp h2)
  · norm_num
  · norm_num

/-- C10: every genre and keyword of a parsed profile is a purely
alphabetic lowercase token of length at least 3, so the multi-character
vocabulary entries `"hip-hop"` and `"r&b"` (which contain `'-'` and
`'&'`) can never appear in a parsed profile's genres, and the verbatim
+1.0 genre match against a track genre `"hip-hop"` or `"r&b"` can never
fire for a profile produced by `parse`. -/
theorem C10_parse_tokens_exclude_compound_genres (s : String) :
    (∀ w ∈ (parse s).keywords, (∀ c ∈ w.data, isLowerAZ c = true) ∧ 3 ≤ w.length) ∧
    (∀ g ∈ (parse s).genres, (∀ c ∈ g.data, isLowerAZ c = true) ∧ 3 ≤ g.length) ∧
    "hip-hop" ∉ (parse s).genres ∧
    "r&b" ∉ (parse s).genres ∧
    match_genres (parse s).genres "hip-hop" ≠ 1 ∧
    match_genres (parse s).genres "r&b" ≠ 1 := by
  have hgen_sub : ∀ g ∈ (parse s).genres, (∀ c ∈ g.data, isLowerAZ c = true) ∧ 3 ≤ g.length := by
    intro g hgmem
    unfold parse at hgmem
    by_cases h : pyStrip s = ""
    · rw [if_pos h] at hgmem
      simp [defaultProfile] at hgmem
    · rw [if_neg h] at hgmem
      have hw : g ∈ extract_words (pyLower s) := (List.mem_filter.mp hgmem).1
      exact ⟨(extract_words_ok _ g hw).2.1, (extract_words_ok _ g hw).2.2⟩
  have hkw : ∀ w ∈ (parse s).keywords, (∀ c ∈ w.data, isLowerAZ c = true) ∧ 3 ≤ w.length := by
    intro w hwmem
    unfold parse at hwmem
    by_cases h : pyStrip s = ""
    · rw [if_pos h] at hwmem
      simp [defaultProfile] at hwmem
    · rw [if_neg h] at hwmem
      exact ⟨(extract_words_ok _ w hwmem).2.1, (extract_words_ok _ w hwmem).2.2⟩
  have hnh : "hip-hop" ∉ (parse s).genres := by
    intro hmem
    have := (hgen_sub _ hmem).1 '-' (by decide)
    exact absurd this (by decide)
  have hnr : "r&b" ∉ (parse s).genres := by
    intro hmem
    have := (hgen_sub _ hmem).1 '&' (by decide)
    exact absurd this (by decide)
  refine ⟨hkw, hgen_sub, hnh, hnr, ?_, ?_⟩
  · exact match_genres_ne_one _ (fun g hgm => (hgen_sub g hgm).1) _ hnh rfl
  · exact match_genres_ne_one _ (fun g hgm => (hgen_sub g hgm).1) _ hnr rfl

/-- Witness for C10 at a concrete input that mentions hip-hop. -/
theorem C10_parse_tokens_exclude_compound_genres_witness :
    "hip-hop" ∉ (parse "play some hip-hop and rock").genres ∧
    match_genres (parse "play some hip-hop and rock").genres "hip-hop" ≠ 1 :=
  ⟨(C10_parse_tokens_exclude_compound_genres "play some hip-hop and rock").2.2.1,
   (C10_parse_tokens_exclude_compound_genres "play some hip-hop and rock").2.2.2.2.1⟩

end MoodMatch
